import Mathlib

/-!
Verification of the Programming-Rust examples repository against its
natural-language specification.  The core of the specification is a generic
error-propagation framework (`ErrorValue` and its protocol); the repository's
chapters contain the concrete demonstration programs (`read_and_sum`,
`StringTable::find_by_prefix`, `u8` checked arithmetic, the `quickreplace`
CLI).  The framework itself is not among the source files, so it is modelled
from the spec; the chapter programs are embedded directly from the source.
-/

namespace ErrFw

/-- Modelled from the spec: the closed set of error kinds
{Io, Parse, Validation, Custom} (the ErrorValue framework is not among the
repository's source files; only its demonstration call sites are). -/
inductive Kind where
  | io
  | parse
  | validation
  | custom
deriving DecidableEq, Repr

/-- Modelled from the spec: the optional structured diagnostic attributes
(file path, line, column) attached to a node. -/
structure Context where
  path : String
  line : Nat
  col : Nat
deriving DecidableEq, Repr

/-- Modelled from the spec: the per-node data of an ErrorValue: kind, a
human-readable message, optional context, the payload type identifier of the
concrete source error boxed into the node, the type-erased payload itself,
and an optional captured backtrace (a call-stack snapshot, modelled as an
opaque number). -/
structure NodeInfo where
  kind : Kind
  message : String
  context : Option Context
  payloadTypeId : Nat
  payload : String
  backtrace : Option Nat
deriving DecidableEq, Repr

/-- Modelled from the spec: an ErrorValue is an immutable node with an
optional exclusively-owned cause, forming a finite acyclic chain from the
outermost node (most context) to the innermost root cause. -/
inductive ErrorValue where
  | leaf (info : NodeInfo)
  | link (info : NodeInfo) (cause : ErrorValue)
deriving DecidableEq, Repr

namespace ErrorValue

/-- The outermost node's data. -/
def info : ErrorValue → NodeInfo
  | leaf i => i
  | link i _ => i

/-- Modelled from the spec: `kind()` returns the outermost node's kind. -/
def kind (e : ErrorValue) : Kind := e.info.kind

/-- The outermost node's message. -/
def message (e : ErrorValue) : String := e.info.message

/-- The outermost node's context. -/
def context (e : ErrorValue) : Option Context := e.info.context

/-- The outermost node's payload type identifier. -/
def payloadTypeId (e : ErrorValue) : Nat := e.info.payloadTypeId

/-- The outermost node's own captured backtrace (if capture happened there). -/
def ownBacktrace (e : ErrorValue) : Option Nat := e.info.backtrace

/-- Modelled from the spec: `source()` returns a borrowed view of the
immediate cause, or none if the node is terminal. -/
def source : ErrorValue → Option ErrorValue
  | leaf _ => none
  | link _ c => some c

/-- A terminal node is one with no cause. -/
def isTerminal (e : ErrorValue) : Prop := e.source = none

instance (e : ErrorValue) : Decidable e.isTerminal := by
  unfold isTerminal; infer_instance

/-- Modelled from the spec: `root_cause()` walks the chain to the innermost
node, the one with no cause. -/
def rootCause : ErrorValue → ErrorValue
  | leaf i => leaf i
  | link _ c => rootCause c

/-- Number of links in the cause chain. -/
def chainLength : ErrorValue → Nat
  | leaf _ => 1
  | link _ c => chainLength c + 1

/-- Modelled from the spec: `downcast<T>()` attempts to recover the original
concrete payload from the outermost node only, succeeding iff
`payload_type_id` matches the queried type's registered id; it returns none
(not an error) on mismatch. -/
def downcast (tid : Nat) (e : ErrorValue) : Option String :=
  if e.payloadTypeId = tid then some e.info.payload else none

/-- The innermost captured backtrace of the chain (the one pointing at the
true origin), used by `render`. -/
def innerBacktrace : ErrorValue → Option Nat
  | leaf i => i.backtrace
  | link i c =>
    match innerBacktrace c with
    | some b => some b
    | none => i.backtrace

end ErrorValue

/-- The name used for a kind in rendered output. -/
def kindName : Kind → String
  | .io => "Io"
  | .parse => "Parse"
  | .validation => "Validation"
  | .custom => "Custom"

/-- One rendered line for one chain link, prefixed to show nesting depth. -/
def renderLine (depth : Nat) (i : NodeInfo) : String :=
  (if depth = 0 then "" else String.join (List.replicate depth "  ") ++ "caused by: ")
    ++ kindName i.kind ++ ": " ++ i.message

/-- The rendered lines of a chain, outermost first, one line per link,
each prefixed with its nesting depth. -/
def renderLinesAux (depth : Nat) : ErrorValue → List String
  | .leaf i => [renderLine depth i]
  | .link i c => renderLine depth i :: renderLinesAux (depth + 1) c

/-- Modelled from the spec: the deterministic rendering of a full chain is a
sequence of lines, one per chain link, outermost first and root cause last,
followed by the backtrace if one was captured anywhere in the chain (the
innermost captured one). -/
structure Rendered where
  lines : List String
  backtrace : Option Nat
deriving DecidableEq, Repr

/-- Modelled from the spec: `render()` produces the deterministic rendering
of the full chain: one line per link, outermost first, plus the innermost
captured backtrace when present. -/
def render (e : ErrorValue) : Rendered :=
  ⟨renderLinesAux 0 e, e.innerBacktrace⟩

/-- The rendered chain flattened to text (the externally observable
artifact compared byte-for-byte by the propagation scenario). -/
def renderText (e : ErrorValue) : String :=
  String.intercalate "\x0a" (render e).lines ++
    (match (render e).backtrace with
     | some b => "\x0abacktrace #" ++ toString b
     | none => "")

/-- Modelled from the spec: `new(kind, message, context?)` builds a terminal
node with no cause.  The message must be non-empty: violating this is a
fatal assertion at construction (modelled as `none`), never a recoverable
returned error.  If the process-wide capture flag is enabled, capturing the
current stack (an opaque snapshot `stack`) is a side effect of `new`. -/
def new (captureFlag : Bool) (stack : Nat) (kind : Kind) (message : String)
    (context : Option Context) (tid : Nat) (payload : String) :
    Option ErrorValue :=
  if message = "" then none
  else some (ErrorValue.leaf
    ⟨kind, message, context, tid, payload, if captureFlag then some stack else none⟩)

/-- Modelled from the spec: `wrap(cause, kind, message, context?)` builds a
new outermost node owning `cause`.  The message must be non-empty (fatal
assertion otherwise, modelled as `none`).  `wrap` never captures a
backtrace: it reuses the innermost one already in the chain. -/
def wrap (cause : ErrorValue) (kind : Kind) (message : String)
    (context : Option Context) (tid : Nat) (payload : String) :
    Option ErrorValue :=
  if message = "" then none
  else some (ErrorValue.link ⟨kind, message, context, tid, payload, none⟩ cause)

/-- Modelled from the spec: an external collaborator's terminal error carries
a textual message and a stable type identity usable as `payload_type_id`. -/
structure ExternalError where
  kind : Kind
  typeId : Nat
  message : String
  payload : String
deriving DecidableEq, Repr

/-- Modelled from the spec: `from_external(payload)` converts an external
terminal error into an ErrorValue of the appropriate kind, stamping
`payload_type_id` from the external type and storing the external error's
own message; like `new`, it captures the stack iff the capture flag is on. -/
def fromExternal (captureFlag : Bool) (stack : Nat) (ext : ExternalError) :
    Option ErrorValue :=
  if ext.message = "" then none
  else some (ErrorValue.leaf
    ⟨ext.kind, ext.message, none, ext.typeId, ext.payload,
      if captureFlag then some stack else none⟩)

/-- The data one wrapping layer adds: kind, message, context, and the
wrapping layer's own payload identity. -/
structure Layer where
  kind : Kind
  message : String
  context : Option Context
  tid : Nat
  payload : String
deriving DecidableEq, Repr

/-- `wrap` applied once per layer, innermost layer first: each layer wraps
the value produced so far.  Propagates the fatal-assertion outcome of
`wrap`. -/
def wrapAll (t : ErrorValue) (layers : List Layer) : Option ErrorValue :=
  match layers with
  | [] => some t
  | l :: ls =>
    match wrap t l.kind l.message l.context l.tid l.payload with
    | none => none
    | some e => wrapAll e ls

/-- Every message in the chain is non-empty (the spec's chain-wide
invariant), as an executable check. -/
def allMessagesNonEmpty : ErrorValue → Bool
  | .leaf i => i.message ≠ ""
  | .link i c => i.message ≠ "" && allMessagesNonEmpty c

/-- Modelled from the spec: the pass-through propagation policy: a call
layer that adds no diagnostic value propagates the failure unchanged
(success values likewise pass through). -/
def passLayer {α : Type} (r : Except ErrorValue α) : Except ErrorValue α :=
  match r with
  | .error e => .error e
  | .ok v => .ok v

/-- The spec's scenario: pass-through propagation through three synchronous
call layers. -/
def threeLayers {α : Type} (r : Except ErrorValue α) : Except ErrorValue α :=
  passLayer (passLayer (passLayer r))

/-- What a finished process makes externally visible: its exit status and
the lines written to the standard output and standard error streams. -/
structure ProcessOutcome where
  exitCode : Nat
  stdoutLines : List String
  stderrLines : List String
deriving DecidableEq, Repr

/-- Modelled from the spec: the top-level caller consumes `render()` for
display on stderr, with a non-zero process exit when the error reaches the
top uncaught; a success produces no error trace and a zero exit. -/
def topLevel {α : Type} (r : Except ErrorValue α) : ProcessOutcome :=
  match r with
  | .error e => ⟨1, [], (render e).lines ++
      (match (render e).backtrace with
       | some b => ["backtrace #" ++ toString b]
       | none => [])⟩
  | .ok _ => ⟨0, [], []⟩

/-- The error rendered by a failed computation, if any. -/
def errRender {α : Type} (r : Except ErrorValue α) : Option String :=
  match r with
  | .error e => some (renderText e)
  | .ok _ => none

end ErrFw

namespace Ch02

/-!
Embedding of `src/ch_02/src/main.rs` (the `quickreplace` CLI).  The external
collaborators (filesystem reads/writes, the regex engine) are passed in as
oracle results; `main`'s control flow over them is embedded directly.
-/

/-- The fallible external operations `main` consumes: reading the input
file, the `replace` step (regex compilation may fail), and writing the
output file.  Each is an oracle result carrying its error's display text. -/
structure World where
  readResult : Except String String
  replaceResult : String → Except String String
  writeResult : String → Except String Unit

/-- From src (ch_02 `main`, lines 43-79): read the input file, replace, and
write, exiting with status 1 and a message on stderr at the first failing
step, and printing a success message on stdout (exit 0) when all succeed. -/
def quickreplaceMain (inputFilename outputFilename : String) (w : World) :
    ErrFw.ProcessOutcome :=
  match w.readResult with
  | .error e =>
    ⟨1, [], ["Error: failed to read from file '" ++ inputFilename ++ "': " ++ e]⟩
  | .ok inputData =>
    match w.replaceResult inputData with
    | .error e => ⟨1, [], ["Error: failed to replace text: " ++ e]⟩
    | .ok replacedData =>
      match w.writeResult replacedData with
      | .error e =>
        ⟨1, [], ["Error: failed to write to file '" ++ outputFilename ++ "': " ++ e]⟩
      | .ok _ =>
        ⟨0, ["Successfully replaced text and wrote output to '" ++ outputFilename ++ "'"],
          []⟩

/-- All three external steps succeed. -/
def World.allOk (w : World) : Prop :=
  (∃ v, w.readResult = .ok v) ∧
  (∀ s, ∃ v, w.replaceResult s = .ok v) ∧
  (∀ s, w.writeResult s = .ok ())

end Ch02

namespace Ch07

/-!
Embedding of `src/ch_07/src/main.rs`: `read_and_sum` over a file of integer
lines, with `?`-propagation of I/O and parse errors into a type-erased
`GenericError`, and `main`'s downcast-based branching on the result.
-/

/-- An I/O error's display text (the payload of `std::io::Error` as far as
this program observes it). -/
structure IoError where
  msg : String
deriving DecidableEq, Repr

/-- A `ParseIntError`'s display text. -/
structure ParseIntError where
  msg : String
deriving DecidableEq, Repr

/-- The type-erased `GenericError = Box<dyn Error + Send + Sync>`: this
program only ever boxes an `io::Error` or a `ParseIntError`, and `main`
recovers which via downcasting. -/
inductive GenericError where
  | io (e : IoError)
  | parseInt (e : ParseIntError)
deriving DecidableEq, Repr

/-- `e.downcast_ref::<ParseIntError>()` on the boxed error. -/
def downcastParseInt : GenericError → Option ParseIntError
  | .parseInt e => some e
  | .io _ => none

/-- `e.downcast_ref::<io::Error>()` on the boxed error. -/
def downcastIo : GenericError → Option IoError
  | .io e => some e
  | .parseInt _ => none

/-- Rust `char::is_whitespace`: the Unicode White_Space property
(U+0009-U+000D, U+0020, U+0085, U+00A0, U+1680, U+2000-U+200A, U+2028,
U+2029, U+202F, U+205F, U+3000). -/
def isWs (c : Char) : Bool :=
  c = ' ' || c = '\t' || c = '\x0a' || c = '\x0b' || c = '\x0c' || c = '\x0d' ||
  c = '\x85' || c = '\xa0' || c = '\u1680' ||
  ('\u2000' ≤ c && c ≤ '\u200a') ||
  c = '\u2028' || c = '\u2029' || c = '\u202f' || c = '\u205f' || c = '\u3000'

/-- Rust `str::trim`: strip leading and trailing whitespace. -/
def trim (s : String) : String :=
  ⟨(s.data.dropWhile isWs).reverse.dropWhile isWs |>.reverse⟩

/-- Fold a run of decimal digits to its value; none on empty input or a
non-digit. -/
def parseDigits : List Char → Option Nat
  | [] => none
  | cs =>
    if cs.all (fun c => c.isDigit) then
      some (cs.foldl (fun acc c => acc * 10 + (c.toNat - 48)) 0)
    else none

/-- Rust `str::parse::<i32>`: an optional sign followed by at least one
digit, failing (with a `ParseIntError`) on anything else or on a value
outside the i32 range. -/
def parse_i32 (s : String) : Except ParseIntError Int :=
  let fail : Except ParseIntError Int :=
    .error ⟨"invalid digit found in string"⟩
  match s.data with
  | [] => .error ⟨"cannot parse integer from empty string"⟩
  | '+' :: rest =>
    match parseDigits rest with
    | none => fail
    | some n =>
      if n ≤ 2147483647 then .ok (n : Int)
      else .error ⟨"number too large to fit in target type"⟩
  | '-' :: rest =>
    match parseDigits rest with
    | none => fail
    | some n =>
      if n ≤ 2147483648 then .ok (-(n : Int))
      else .error ⟨"number too small to fit in target type"⟩
  | cs =>
    match parseDigits cs with
    | none => fail
    | some n =>
      if n ≤ 2147483647 then .ok (n : Int)
      else .error ⟨"number too large to fit in target type"⟩

/-- Two's-complement wrap-around of an integer into the i32 range
(Rust's release-mode semantics of `sum += num` on `i32`). -/
def wrap32 (z : Int) : Int :=
  (z + 2147483648) % 4294967296 - 2147483648

/-- The filesystem as this program observes it: `File::open` either fails
with an I/O error or yields the file's lines, each line itself read either
successfully or with an I/O error (`BufReader::lines` yields
`io::Result<String>` per line). -/
def FileOracle := Except IoError (List (Except IoError String))

/-- The loop body of `read_and_sum`: `line?`, `line.trim().parse::<i32>()?`,
`sum += num`, with the sum accumulated in a wrapping i32. -/
def sumLines : List (Except IoError String) → Int → Except GenericError Int
  | [], sum => .ok sum
  | .error e :: _, _ => .error (.io e)
  | .ok line :: rest, sum =>
    match parse_i32 (trim line) with
    | .error pe => .error (.parseInt pe)
    | .ok num => sumLines rest (wrap32 (sum + num))

/-- From src (ch_07 `read_and_sum`, lines 9-21): open the file, then read
and parse each line in order, propagating the first failure via `?` and
returning the accumulated sum otherwise. -/
def read_and_sum (file : FileOracle) : Except GenericError Int :=
  match file with
  | .error e => .error (.io e)
  | .ok lineResults => sumLines lineResults 0

/-- From src (ch_07 `main`, lines 23-40): match on the result, printing the
sum on success, else branching via `downcast_ref` to print a specific
message; everything goes to stdout via `println!` and `main` returns
`Ok(())` (exit status 0) in every case. -/
def ch07Main (file : FileOracle) : ErrFw.ProcessOutcome :=
  match read_and_sum file with
  | .ok sum => ⟨0, ["Sum of numbers in file: " ++ toString sum], []⟩
  | .error e =>
    match downcastParseInt e with
    | some pe => ⟨0, ["Error: failed to parse integer: " ++ pe.msg], []⟩
    | none =>
      match downcastIo e with
      | some ioe => ⟨0, ["Error: I/O error occurred: " ++ ioe.msg], []⟩
      | none => ⟨0, ["Unknown error occurred"], []⟩

/-- Claim-side description: the parsed integers of the file's lines, defined
when every line reads and parses. -/
def parsedInts : List (Except IoError String) → Option (List Int)
  | [] => some []
  | .error _ :: _ => none
  | .ok s :: rest =>
    match parse_i32 (trim s) with
    | .error _ => none
    | .ok n => (parsedInts rest).map (n :: ·)

/-- Claim-side description: the sum of a list of parsed integers, folded
left to right with wrapping i32 addition, starting from an accumulator. -/
def wrapSumFrom (acc : Int) (ns : List Int) : Int :=
  ns.foldl (fun a n => wrap32 (a + n)) acc

/-- Claim-side description: the first failure among the line results, in
order: a line's read error, or the parse error of the earliest failing
line. -/
def firstFailure : List (Except IoError String) → Option GenericError
  | [] => none
  | .error e :: _ => some (.io e)
  | .ok s :: rest =>
    match parse_i32 (trim s) with
    | .error pe => some (.parseInt pe)
    | .ok _ => firstFailure rest

end Ch07

namespace Ch05

/-!
Embedding of `src/ch_05/src/main.rs`: `StringTable` and its
`find_by_prefix` linear search.
-/

/-- Rust `str::starts_with(p)`: `p` is a prefix of `s`. -/
def starts_with (s p : String) : Bool :=
  p.data.isPrefixOf s.data

/-- From src: a table of strings. -/
structure StringTable where
  elements : List String
deriving DecidableEq, Repr

/-- The loop of `find_by_prefix`: scan indices in order and return the first
element starting with the given string. -/
def findFrom (p : String) : List String → Option String
  | [] => none
  | s :: rest => if starts_with s p then some s else findFrom p rest

/-- From src (ch_05 `StringTable::find_by_prefix`, lines 6-13): return a
reference to the first element starting with the given string, or `None`. -/
def find_by_prefix (t : StringTable) (p : String) : Option String :=
  findFrom p t.elements

end Ch05

namespace Ch03

/-!
Embedding of `src/ch_03/src/main.rs`: the `u8` checked / wrapping /
saturating / overflowing arithmetic the program exercises and asserts on.
A `u8` value is a natural number below 256.
-/

/-- `u8::checked_sub`. -/
def checked_sub (x y : Nat) : Option Nat :=
  if y ≤ x then some (x - y) else none

/-- `u8::wrapping_sub`: subtraction modulo 2^8. -/
def wrapping_sub (x y : Nat) : Nat :=
  (x + (256 - y % 256)) % 256

/-- `u8::saturating_sub`. -/
def saturating_sub (x y : Nat) : Nat :=
  x - y

/-- `u8::overflowing_sub`: the wrapped result and whether overflow
occurred. -/
def overflowing_sub (x y : Nat) : Nat × Bool :=
  (wrapping_sub x y, decide (x < y))

/-- `u8::checked_mul`. -/
def checked_mul (x y : Nat) : Option Nat :=
  if x * y ≤ 255 then some (x * y) else none

/-- `u8::wrapping_mul`: multiplication modulo 2^8. -/
def wrapping_mul (x y : Nat) : Nat :=
  x * y % 256

/-- `u8::saturating_mul`. -/
def saturating_mul (x y : Nat) : Nat :=
  min (x * y) 255

/-- `u8::overflowing_mul`. -/
def overflowing_mul (x y : Nat) : Nat × Bool :=
  (wrapping_mul x y, decide (255 < x * y))

/-- From src (ch_03 `main`, lines 29-33): the program's assertions on the
multiplication results at x = 2, y = 3; `main` terminates normally iff this
evaluates to `true`. -/
def mainAsserts : Bool :=
  checked_mul 2 3 == some 6 &&
  wrapping_mul 2 3 == 6 &&
  saturating_mul 2 3 == 6 &&
  (overflowing_mul 2 3).1 == 6 &&
  !(overflowing_mul 2 3).2

end Ch03

namespace Samples

/-- A sample terminal I/O error node (no backtrace captured). -/
def ioInfo : ErrFw.NodeInfo :=
  ⟨.io, "file not found", none, 10, "iopayload", none⟩

/-- The sample terminal error value. -/
def t0 : ErrFw.ErrorValue := .leaf ioInfo

/-- A sample wrapping layer adding parse context. -/
def layer1 : ErrFw.Layer := ⟨.parse, "while loading config", none, 11, "parsepayload"⟩

/-- A sample wrapping layer adding custom context. -/
def layer2 : ErrFw.Layer := ⟨.custom, "startup failed", none, 12, "custompayload"⟩

/-- A sample world for the quickreplace CLI in which every external step
succeeds. -/
def okWorld : Ch02.World :=
  ⟨.ok "input text", fun s => .ok s, fun _ => .ok ()⟩

end Samples

/-! ### Supporting lemmas (shared) -/

namespace ErrFw

/-- The number of rendered chain lines equals the chain length, at any
nesting depth. -/
theorem renderLinesAux_length (e : ErrorValue) :
    ∀ d, (renderLinesAux d e).length = e.chainLength := by
  induction e with
  | leaf i => intro d; rfl
  | link i c ih =>
    intro d
    simp [renderLinesAux, ErrorValue.chainLength, ih]

/-- A successful `wrap` yields a node whose immediate cause is the wrapped
value, whose own backtrace is absent, and whose innermost backtrace is the
wrapped value's. -/
theorem wrap_eq_some {c : ErrorValue} {k m ctx tid pl e}
    (h : wrap c k m ctx tid pl = some e) :
    e = ErrorValue.link ⟨k, m, ctx, tid, pl, none⟩ c := by
  unfold wrap at h
  by_cases hm : m = "" <;> simp [hm] at h
  exact h.symm

/-- A wrap node reuses the innermost backtrace of its cause. -/
theorem innerBacktrace_link_none (i : NodeInfo) (c : ErrorValue)
    (hb : i.backtrace = none) :
    (ErrorValue.link i c).innerBacktrace = c.innerBacktrace := by
  simp only [ErrorValue.innerBacktrace]
  cases hc : c.innerBacktrace <;> simp [hc, hb]

/-- `wrapAll` preserves the root cause. -/
theorem wrapAll_rootCause {t : ErrorValue} {layers : List Layer} {e : ErrorValue}
    (h : wrapAll t layers = some e) : e.rootCause = t.rootCause := by
  induction layers generalizing t with
  | nil => simp [wrapAll] at h; simp [h]
  | cons l ls ih =>
    unfold wrapAll at h
    cases hw : wrap t l.kind l.message l.context l.tid l.payload with
    | none => rw [hw] at h; exact absurd h (by simp)
    | some e1 =>
      rw [hw] at h
      have he1 := wrap_eq_some hw
      have := ih h
      rw [this, he1]
      rfl

/-- `wrapAll` over `n` layers adds `n` links to the chain. -/
theorem wrapAll_chainLength {t : ErrorValue} {layers : List Layer} {e : ErrorValue}
    (h : wrapAll t layers = some e) :
    e.chainLength = t.chainLength + layers.length := by
  induction layers generalizing t with
  | nil => simp [wrapAll] at h; simp [h]
  | cons l ls ih =>
    unfold wrapAll at h
    cases hw : wrap t l.kind l.message l.context l.tid l.payload with
    | none => rw [hw] at h; exact absurd h (by simp)
    | some e1 =>
      rw [hw] at h
      have he1 := wrap_eq_some hw
      have := ih h
      rw [this, he1]
      simp [ErrorValue.chainLength]
      omega

/-- `wrapAll` preserves the innermost captured backtrace: wrapping layers
never capture, so the terminal's capture is the one rendered. -/
theorem wrapAll_innerBacktrace {t : ErrorValue} {layers : List Layer} {e : ErrorValue}
    (h : wrapAll t layers = some e) : e.innerBacktrace = t.innerBacktrace := by
  induction layers generalizing t with
  | nil => simp [wrapAll] at h; simp [h]
  | cons l ls ih =>
    unfold wrapAll at h
    cases hw : wrap t l.kind l.message l.context l.tid l.payload with
    | none => rw [hw] at h; exact absurd h (by simp)
    | some e1 =>
      rw [hw] at h
      have he1 := wrap_eq_some hw
      rw [ih h, he1, innerBacktrace_link_none]
      rfl

/-- A successful `new` requires a non-empty message and yields the terminal
node with a backtrace exactly when the capture flag was on. -/
theorem new_eq_some {flag : Bool} {st : Nat} {k : Kind} {m : String}
    {ctx : Option Context} {tid : Nat} {pl : String} {e : ErrorValue}
    (h : new flag st k m ctx tid pl = some e) :
    m ≠ "" ∧
      e = ErrorValue.leaf ⟨k, m, ctx, tid, pl, if flag then some st else none⟩ := by
  unfold new at h
  by_cases hm : m = "" <;> simp [hm] at h
  exact ⟨hm, h.symm⟩

/-- A successful `from_external` yields the terminal node stamped with the
external type's identity, capturing the stack exactly when the flag was
on. -/
theorem fromExternal_eq_some {flag : Bool} {st : Nat} {ext : ExternalError}
    {e : ErrorValue} (h : fromExternal flag st ext = some e) :
    ext.message ≠ "" ∧
      e = ErrorValue.leaf ⟨ext.kind, ext.message, none, ext.typeId, ext.payload,
        if flag then some st else none⟩ := by
  unfold fromExternal at h
  by_cases hm : ext.message = "" <;> simp [hm] at h
  exact ⟨hm, h.symm⟩

/-- Every chain has at least one link. -/
theorem chainLength_pos (e : ErrorValue) : 0 < e.chainLength := by
  cases e <;> simp [ErrorValue.chainLength]

/-- The rendered chain lines are never empty. -/
theorem render_lines_ne_nil (e : ErrorValue) : (render e).lines ≠ [] := by
  intro h
  have h1 : (render e).lines.length = e.chainLength := renderLinesAux_length e 0
  rw [h] at h1
  have := chainLength_pos e
  simp at h1
  omega

/-- A terminal value is a leaf and is its own root cause. -/
theorem rootCause_of_terminal {t : ErrorValue} (ht : t.isTerminal) :
    t.rootCause = t := by
  cases t with
  | leaf i => rfl
  | link i c => exact absurd ht (by simp [ErrorValue.isTerminal, ErrorValue.source])

/-- `wrapAll` preserves the chain-wide non-empty-message invariant. -/
theorem wrapAll_allMessagesNonEmpty {t : ErrorValue} {layers : List Layer}
    {e : ErrorValue} (hm : allMessagesNonEmpty t = true)
    (h : wrapAll t layers = some e) : allMessagesNonEmpty e = true := by
  induction layers generalizing t with
  | nil => simp [wrapAll] at h; rw [← h]; exact hm
  | cons l ls ih =>
    unfold wrapAll at h
    cases hw : wrap t l.kind l.message l.context l.tid l.payload with
    | none => rw [hw] at h; exact absurd h (by simp)
    | some e1 =>
      rw [hw] at h
      have he1 := wrap_eq_some hw
      have hlm : l.message ≠ "" := by
        intro habs
        unfold wrap at hw
        simp [habs] at hw
      refine ih ?_ h
      rw [he1]
      simp [allMessagesNonEmpty, hlm, hm]

end ErrFw

namespace Ch07

/-- When every line reads and parses, the summing loop returns the wrapping
fold of the parsed integers over the accumulator. -/
theorem sumLines_of_parsedInts {lrs : List (Except IoError String)}
    {ns : List Int} (h : parsedInts lrs = some ns) :
    ∀ acc, sumLines lrs acc = .ok (wrapSumFrom acc ns) := by
  induction lrs generalizing ns with
  | nil =>
    intro acc
    simp [parsedInts] at h
    subst h
    simp [sumLines, wrapSumFrom]
  | cons r rest ih =>
    intro acc
    cases r with
    | error e => exact absurd h (by simp [parsedInts])
    | ok s =>
      unfold parsedInts at h
      cases hp : parse_i32 (trim s) with
      | error pe => rw [hp] at h; exact absurd h (by simp)
      | ok n =>
        rw [hp] at h
        cases hrest : parsedInts rest with
        | none => rw [hrest] at h; exact absurd h (by simp)
        | some ms =>
          rw [hrest] at h
          simp at h
          simp [sumLines, hp, ih hrest, ← h, wrapSumFrom]

/-- When some line fails to read or parse, the summing loop returns the
first failure, regardless of the accumulator. -/
theorem sumLines_of_failure {lrs : List (Except IoError String)}
    (h : parsedInts lrs = none) :
    ∃ err, firstFailure lrs = some err ∧ ∀ acc, sumLines lrs acc = .error err := by
  induction lrs with
  | nil => exact absurd h (by simp [parsedInts])
  | cons r rest ih =>
    cases r with
    | error e =>
      exact ⟨.io e, rfl, fun acc => rfl⟩
    | ok s =>
      unfold parsedInts at h
      cases hp : parse_i32 (trim s) with
      | error pe =>
        refine ⟨.parseInt pe, ?_, fun acc => ?_⟩
        · simp [firstFailure, hp]
        · simp [sumLines, hp]
      | ok n =>
        rw [hp] at h
        cases hrest : parsedInts rest with
        | none =>
          obtain ⟨err, hf, hs⟩ := ih hrest
          refine ⟨err, ?_, fun acc => ?_⟩
          · simp [firstFailure, hp, hf]
          · simp [sumLines, hp, hs]
        | some ms => rw [hrest] at h; exact absurd h (by simp)

/-- `parsedInts` succeeds exactly when every line reads successfully and its
trimmed text parses as an i32. -/
theorem parsedInts_isSome_iff (lrs : List (Except IoError String)) :
    (∃ ns, parsedInts lrs = some ns) ↔
      ∀ r ∈ lrs, ∃ s n, r = .ok s ∧ parse_i32 (trim s) = .ok n := by
  induction lrs with
  | nil => simp [parsedInts]
  | cons r rest ih =>
    cases r with
    | error e =>
      constructor
      · rintro ⟨ns, h⟩
        exact absurd h (by simp [parsedInts])
      · intro h
        obtain ⟨s, n, hsn, _⟩ := h (.error e) (by simp)
        exact absurd hsn (by simp)
    | ok s =>
      constructor
      · rintro ⟨ns, h⟩
        unfold parsedInts at h
        cases hp : parse_i32 (trim s) with
        | error pe => rw [hp] at h; exact absurd h (by simp)
        | ok n =>
          rw [hp] at h
          cases hrest : parsedInts rest with
          | none => rw [hrest] at h; exact absurd h (by simp)
          | some ms =>
            intro r hr
            rcases List.mem_cons.mp hr with h1 | h1
            · exact ⟨s, n, by rw [h1], hp⟩
            · exact (ih.mp ⟨ms, hrest⟩) r h1
      · intro h
        obtain ⟨s', n, hs', hp⟩ := h (.ok s) (by simp)
        have hss : s' = s := by
          injection hs' with h2
          exact h2.symm
        rw [hss] at hp
        obtain ⟨ms, hrest⟩ := ih.mpr (fun r hr => h r (List.mem_cons.mpr (Or.inr hr)))
        exact ⟨n :: ms, by simp [parsedInts, hp, hrest]⟩

end Ch07

namespace Ch05

/-- First-match characterization of the search loop: it returns `some s`
exactly when `s` sits at the lowest index whose element starts with the
given string, every earlier element failing the test. -/
theorem findFrom_eq_some_iff (p : String) (l : List String) (s : String) :
    findFrom p l = some s ↔
      ∃ i, l.get? i = some s ∧ starts_with s p = true ∧
        ∀ j, j < i → ∀ x, l.get? j = some x → starts_with x p = false := by
  induction l with
  | nil => simp [findFrom]
  | cons a rest ih =>
    by_cases ha : starts_with a p = true
    · simp only [findFrom, if_pos ha]
      constructor
      · intro h
        injection h with h
        exact ⟨0, by simp [← h], by rw [← h]; exact ha, by omega⟩
      · rintro ⟨i, hget, hs, hmin⟩
        cases i with
        | zero => simp at hget; rw [hget]
        | succ j =>
          have := hmin 0 (by omega) a (by simp)
          rw [this] at ha
          exact absurd ha (by simp)
    · have ha' : starts_with a p = false := by
        cases h : starts_with a p
        · rfl
        · exact absurd h ha
      simp only [findFrom, if_neg ha]
      rw [ih]
      constructor
      · rintro ⟨i, hget, hs, hmin⟩
        refine ⟨i + 1, by simpa using hget, hs, ?_⟩
        intro j hj x hx
        cases j with
        | zero =>
          simp at hx
          rw [← hx]; exact ha'
        | succ k =>
          exact hmin k (by omega) x (by simpa using hx)
      · rintro ⟨i, hget, hs, hmin⟩
        cases i with
        | zero =>
          simp at hget
          rw [hget] at ha
          exact absurd hs ha
        | succ k =>
          refine ⟨k, by simpa using hget, hs, ?_⟩
          intro j hj x hx
          exact hmin (j + 1) (by omega) x (by simpa using hx)

/-- The search loop returns `none` exactly when no element starts with the
given string. -/
theorem findFrom_eq_none_iff (p : String) (l : List String) :
    findFrom p l = none ↔ ∀ s ∈ l, starts_with s p = false := by
  induction l with
  | nil => simp [findFrom]
  | cons a rest ih =>
    by_cases ha : starts_with a p = true
    · simp [findFrom, if_pos ha, ha]
    · have ha' : starts_with a p = false := by
        cases h : starts_with a p
        · rfl
        · exact absurd h ha
      simp [findFrom, if_neg ha, ha', ih]

end Ch05

/-! ### Claim theorems -/

/-- C1: for every ErrorValue and every type id, `downcast` on the outermost
node succeeds iff the outermost node's `payload_type_id` equals the queried
id, in which case it recovers the original concrete payload stored at
construction; any other id yields `none` — a plain query result, never a
failure (the operation is total and returns an `Option`). -/
theorem C1_downcast_iff_payload_type_id :
    (∀ (e : ErrFw.ErrorValue) (tid : Nat),
        (ErrFw.ErrorValue.downcast tid e).isSome = true ↔ e.payloadTypeId = tid) ∧
    (∀ flag st k m ctx tid pl e,
        ErrFw.new flag st k m ctx tid pl = some e →
          ErrFw.ErrorValue.downcast tid e = some pl ∧
          ∀ tid2, tid2 ≠ tid → ErrFw.ErrorValue.downcast tid2 e = none) := by
  constructor
  · intro e tid
    unfold ErrFw.ErrorValue.downcast
    by_cases h : e.payloadTypeId = tid <;> simp [h]
  · intro flag st k m ctx tid pl e h
    obtain ⟨hm, he⟩ := ErrFw.new_eq_some h
    subst he
    constructor
    · simp [ErrFw.ErrorValue.downcast, ErrFw.ErrorValue.payloadTypeId,
        ErrFw.ErrorValue.info]
    · intro tid2 hne
      simp [ErrFw.ErrorValue.downcast, ErrFw.ErrorValue.payloadTypeId,
        ErrFw.ErrorValue.info, Ne.symm hne]

/-- C1 witness: on a concretely constructed terminal I/O error with payload
type id 10, downcasting to id 10 recovers the payload and downcasting to
id 11 yields `none`. -/
theorem C1_downcast_witness :
    ErrFw.ErrorValue.downcast 10
        (.leaf ⟨.io, "file not found", none, 10, "iopayload", none⟩) =
      some "iopayload" ∧
    ErrFw.ErrorValue.downcast 11
        (.leaf ⟨.io, "file not found", none, 10, "iopayload", none⟩) = none := by
  have h := C1_downcast_iff_payload_type_id.2 false 0 .io "file not found" none 10
    "iopayload" (.leaf ⟨.io, "file not found", none, 10, "iopayload", none⟩) rfl
  exact ⟨h.1, h.2 11 (by decide)⟩

/-- C2: wrapping a terminal node n times yields a value whose `root_cause`
is that terminal node and whose `render` output has exactly n+1 lines, one
per chain link. -/
theorem C2_rootCause_and_render_lines (t : ErrFw.ErrorValue)
    (layers : List ErrFw.Layer) (e : ErrFw.ErrorValue)
    (ht : t.isTerminal) (h : ErrFw.wrapAll t layers = some e) :
    e.rootCause = t ∧ (ErrFw.render e).lines.length = layers.length + 1 := by
  constructor
  · rw [ErrFw.wrapAll_rootCause h, ErrFw.rootCause_of_terminal ht]
  · have h1 := ErrFw.wrapAll_chainLength h
    have h2 : t.chainLength = 1 := by
      cases t with
      | leaf i => rfl
      | link i c =>
        exact absurd ht (by simp [ErrFw.ErrorValue.isTerminal, ErrFw.ErrorValue.source])
    have h3 : (ErrFw.render e).lines.length = e.chainLength :=
      ErrFw.renderLinesAux_length e 0
    rw [h3, h1, h2]
    omega

/-- C2 witness: wrapping the sample terminal error with two layers gives a
chain whose root cause is the terminal error and whose rendering has three
lines. -/
theorem C2_witness :
    Samples.t0.isTerminal ∧
    ErrFw.wrapAll Samples.t0 [Samples.layer1, Samples.layer2] =
      some (.link ⟨.custom, "startup failed", none, 12, "custompayload", none⟩
        (.link ⟨.parse, "while loading config", none, 11, "parsepayload", none⟩
          Samples.t0)) ∧
    (ErrFw.ErrorValue.link ⟨.custom, "startup failed", none, 12, "custompayload", none⟩
        (.link ⟨.parse, "while loading config", none, 11, "parsepayload", none⟩
          Samples.t0)).rootCause = Samples.t0 ∧
    (ErrFw.render (.link ⟨.custom, "startup failed", none, 12, "custompayload", none⟩
        (.link ⟨.parse, "while loading config", none, 11, "parsepayload", none⟩
          Samples.t0))).lines.length = [Samples.layer1, Samples.layer2].length + 1 := by
  have hterm : Samples.t0.isTerminal := by
    simp [Samples.t0, ErrFw.ErrorValue.isTerminal, ErrFw.ErrorValue.source]
  have hwrap : ErrFw.wrapAll Samples.t0 [Samples.layer1, Samples.layer2] =
      some (.link ⟨.custom, "startup failed", none, 12, "custompayload", none⟩
        (.link ⟨.parse, "while loading config", none, 11, "parsepayload", none⟩
          Samples.t0)) := by rfl
  have h := C2_rootCause_and_render_lines Samples.t0 [Samples.layer1, Samples.layer2]
    (.link ⟨.custom, "startup failed", none, 12, "custompayload", none⟩
      (.link ⟨.parse, "while loading config", none, 11, "parsepayload", none⟩
        Samples.t0)) hterm hwrap
  exact ⟨hterm, hwrap, h.1, h.2⟩

/-- C3: pass-through propagation of a failure through three synchronous
call layers yields the very same error value, so its `render` output is
byte-for-byte identical to the value at the point of origin. -/
theorem C3_passthrough_preserves_render (e : ErrFw.ErrorValue) :
    @ErrFw.threeLayers Unit (Except.error e) = Except.error e ∧
    ErrFw.errRender (@ErrFw.threeLayers Unit (Except.error e)) =
      some (ErrFw.renderText e) :=
  ⟨rfl, rfl⟩

/-- C4: an error reaching the top-level caller unhandled is rendered in
full (chain lines plus backtrace line if captured) to the standard error
stream with a non-zero exit status, while a success produces no trace and
exits zero; the quickreplace CLI exits 1 with a message on stderr exactly
when a step fails (and exits 0 with empty stderr when every step
succeeds); ch_07's main handles its error itself, exiting 0 with nothing
on stderr and the explicitly rendered message on stdout. -/
theorem C4_toplevel_error_reporting :
    (∀ (e : ErrFw.ErrorValue),
        (@ErrFw.topLevel Unit (Except.error e)).exitCode ≠ 0 ∧
        (@ErrFw.topLevel Unit (Except.error e)).stderrLines ≠ [] ∧
        (@ErrFw.topLevel Unit (Except.error e)).stderrLines =
          (ErrFw.render e).lines ++
            (match (ErrFw.render e).backtrace with
             | some b => ["backtrace #" ++ toString b]
             | none => [])) ∧
    (∀ (u : Unit), ErrFw.topLevel (Except.ok u) = ⟨0, [], []⟩) ∧
    (∀ ifn ofn w, w.allOk →
        (Ch02.quickreplaceMain ifn ofn w).exitCode = 0 ∧
        (Ch02.quickreplaceMain ifn ofn w).stderrLines = []) ∧
    (∀ ifn ofn w, (Ch02.quickreplaceMain ifn ofn w).exitCode ≠ 0 ↔
        (Ch02.quickreplaceMain ifn ofn w).stderrLines ≠ []) ∧
    (∀ ifn ofn w em, w.readResult = .error em →
        (Ch02.quickreplaceMain ifn ofn w).exitCode = 1 ∧
        (Ch02.quickreplaceMain ifn ofn w).stderrLines ≠ []) ∧
    (∀ file, (Ch07.ch07Main file).exitCode = 0 ∧
        (Ch07.ch07Main file).stderrLines = [] ∧
        (Ch07.ch07Main file).stdoutLines ≠ []) := by
  refine ⟨?_, ?_, ?_, ?_, ?_, ?_⟩
  · intro e
    refine ⟨by simp [ErrFw.topLevel], ?_, by simp [ErrFw.topLevel]⟩
    have := ErrFw.render_lines_ne_nil e
    simp [ErrFw.topLevel]
    intro habs
    exact absurd habs this
  · intro u
    rfl
  · intro ifn ofn w hok
    obtain ⟨⟨v, hv⟩, hrep, hwr⟩ := hok
    obtain ⟨r, hr⟩ := hrep v
    simp [Ch02.quickreplaceMain, hv, hr, hwr r]
  · intro ifn ofn w
    unfold Ch02.quickreplaceMain
    cases hR : w.readResult with
    | error e => simp
    | ok v =>
      cases hP : w.replaceResult v with
      | error e => simp [hP]
      | ok r =>
        cases hW : w.writeResult r with
        | error e => simp [hP, hW]
        | ok u => simp [hP, hW]
  · intro ifn ofn w em hR
    simp [Ch02.quickreplaceMain, hR]
  · intro file
    unfold Ch07.ch07Main
    cases hr : Ch07.read_and_sum file with
    | ok s => simp
    | error e =>
      cases e with
      | io ioe => simp [Ch07.downcastParseInt, Ch07.downcastIo]
      | parseInt pe => simp [Ch07.downcastParseInt]

/-- C4 witness: at the sample error the top level exits non-zero with the
rendered chain on stderr; at a success it exits zero with no output; the
quickreplace CLI on the all-success world exits 0 with empty stderr and on
a failing read exits 1 with a message; ch_07's main on an unreadable file
exits 0 with empty stderr. -/
theorem C4_witness :
    (@ErrFw.topLevel Unit (Except.error Samples.t0)).exitCode ≠ 0 ∧
    ErrFw.topLevel (Except.ok ()) = ⟨0, [], []⟩ ∧
    (Ch02.quickreplaceMain "in.txt" "out.txt" Samples.okWorld).exitCode = 0 ∧
    (Ch02.quickreplaceMain "in.txt" "out.txt"
        ⟨.error "permission denied", fun s => .ok s, fun _ => .ok ()⟩).exitCode = 1 ∧
    (Ch07.ch07Main (.error ⟨"no such file"⟩)).exitCode = 0 := by
  have h := C4_toplevel_error_reporting
  refine ⟨(h.1 Samples.t0).1, h.2.1 (), ?_, ?_, (h.2.2.2.2.2 (.error ⟨"no such file"⟩)).1⟩
  · exact (h.2.2.1 "in.txt" "out.txt" Samples.okWorld
      ⟨⟨"input text", rfl⟩, fun s => ⟨s, rfl⟩, fun _ => rfl⟩).1
  · exact (h.2.2.2.2.1 "in.txt" "out.txt"
      ⟨.error "permission denied", fun s => .ok s, fun _ => .ok ()⟩
      "permission denied" rfl).1

/-- C5: a backtrace is present in the rendered chain iff the process-wide
capture flag was enabled when the terminal node was constructed (the
captured snapshot is exactly the terminal one); `wrap` never captures — a
wrap node's own backtrace is absent and the chain's innermost backtrace is
reused unchanged — while `new` and `from_external` capture exactly when the
flag is on; nothing after construction (the flag is not an argument of
`render`) can remove an already-captured backtrace. -/
theorem C5_backtrace_iff_capture_at_construction :
    (∀ flag st k m ctx tid pl t layers e,
        ErrFw.new flag st k m ctx tid pl = some t →
        ErrFw.wrapAll t layers = some e →
          (ErrFw.render e).backtrace = (if flag then some st else none) ∧
          ((ErrFw.render e).backtrace.isSome = true ↔ flag = true)) ∧
    (∀ c k m ctx tid pl e, ErrFw.wrap c k m ctx tid pl = some e →
        e.ownBacktrace = none ∧ e.innerBacktrace = c.innerBacktrace) ∧
    (∀ flag st ext e, ErrFw.fromExternal flag st ext = some e →
        e.ownBacktrace = (if flag then some st else none)) := by
  refine ⟨?_, ?_, ?_⟩
  · intro flag st k m ctx tid pl t layers e hn hw
    obtain ⟨hm, ht⟩ := ErrFw.new_eq_some hn
    have hinner : e.innerBacktrace = t.innerBacktrace := ErrFw.wrapAll_innerBacktrace hw
    have htb : t.innerBacktrace = (if flag then some st else none) := by
      rw [ht]; rfl
    have hrb : (ErrFw.render e).backtrace = (if flag then some st else none) := by
      show e.innerBacktrace = _
      rw [hinner, htb]
    refine ⟨hrb, ?_⟩
    rw [hrb]
    cases flag <;> simp
  · intro c k m ctx tid pl e h
    have he := ErrFw.wrap_eq_some h
    subst he
    exact ⟨rfl, ErrFw.innerBacktrace_link_none _ c rfl⟩
  · intro flag st ext e h
    obtain ⟨hm, he⟩ := ErrFw.fromExternal_eq_some h
    rw [he]
    rfl

/-- C5 witness: constructing the terminal node with capture enabled
(snapshot 7) and wrapping twice leaves snapshot 7 as the rendered
backtrace; with capture disabled the rendered backtrace is absent; a wrap
node itself captures nothing. -/
theorem C5_witness :
    (ErrFw.render (.link ⟨.custom, "startup failed", none, 12, "custompayload", none⟩
        (.link ⟨.parse, "while loading config", none, 11, "parsepayload", none⟩
          (.leaf ⟨.io, "file not found", none, 10, "iopayload", some 7⟩)))).backtrace =
      some 7 ∧
    (ErrFw.render (.link ⟨.custom, "startup failed", none, 12, "custompayload", none⟩
        (.link ⟨.parse, "while loading config", none, 11, "parsepayload", none⟩
          (.leaf ⟨.io, "file not found", none, 10, "iopayload", none⟩)))).backtrace =
      none ∧
    (ErrFw.ErrorValue.link ⟨.parse, "while loading config", none, 11, "parsepayload", none⟩
        Samples.t0).ownBacktrace = none := by
  have h1 := (C5_backtrace_iff_capture_at_construction.1 true 7 .io "file not found"
    none 10 "iopayload" (.leaf ⟨.io, "file not found", none, 10, "iopayload", some 7⟩)
    [Samples.layer1, Samples.layer2]
    (.link ⟨.custom, "startup failed", none, 12, "custompayload", none⟩
      (.link ⟨.parse, "while loading config", none, 11, "parsepayload", none⟩
        (.leaf ⟨.io, "file not found", none, 10, "iopayload", some 7⟩))) rfl rfl).1
  have h2 := (C5_backtrace_iff_capture_at_construction.1 false 7 .io "file not found"
    none 10 "iopayload" (.leaf ⟨.io, "file not found", none, 10, "iopayload", none⟩)
    [Samples.layer1, Samples.layer2]
    (.link ⟨.custom, "startup failed", none, 12, "custompayload", none⟩
      (.link ⟨.parse, "while loading config", none, 11, "parsepayload", none⟩
        (.leaf ⟨.io, "file not found", none, 10, "iopayload", none⟩))) rfl rfl).1
  have h3 := (C5_backtrace_iff_capture_at_construction.2.1 Samples.t0 .parse
    "while loading config" none 11 "parsepayload"
    (.link ⟨.parse, "while loading config", none, 11, "parsepayload", none⟩
      Samples.t0) rfl).1
  exact ⟨h1, h2, h3⟩

/-- C6: `wrap` never mutates its cause: the wrapped node stores exactly the
original value as its immediate cause, so every inspection of that cause
(message, kind, context, its own cause, and full rendering) agrees with the
pre-wrap value — in this immutable data model a copy taken before wrapping
is the very same value and stays independently inspectable. -/
theorem C6_wrap_never_mutates_cause (c : ErrFw.ErrorValue) (k : ErrFw.Kind)
    (m : String) (ctx : Option ErrFw.Context) (tid : Nat) (pl : String)
    (e : ErrFw.ErrorValue) (h : ErrFw.wrap c k m ctx tid pl = some e) :
    e.source = some c ∧
    e.source.map ErrFw.ErrorValue.message = some c.message ∧
    e.source.map ErrFw.ErrorValue.kind = some c.kind ∧
    e.source.map ErrFw.ErrorValue.context = some c.context ∧
    e.source.map ErrFw.ErrorValue.source = some c.source ∧
    e.source.map ErrFw.renderText = some (ErrFw.renderText c) := by
  have he := ErrFw.wrap_eq_some h
  subst he
  exact ⟨rfl, rfl, rfl, rfl, rfl, rfl⟩

/-- C6 witness: wrapping the sample terminal error stores it unchanged as
the cause. -/
theorem C6_witness :
    (ErrFw.ErrorValue.link ⟨.parse, "while loading config", none, 11, "parsepayload", none⟩
        Samples.t0).source = some Samples.t0 ∧
    (ErrFw.ErrorValue.link ⟨.parse, "while loading config", none, 11, "parsepayload", none⟩
        Samples.t0).source.map ErrFw.renderText = some (ErrFw.renderText Samples.t0) := by
  have h := C6_wrap_never_mutates_cause Samples.t0 .parse "while loading config" none 11
    "parsepayload"
    (.link ⟨.parse, "while loading config", none, 11, "parsepayload", none⟩ Samples.t0)
    rfl
  exact ⟨h.1, h.2.2.2.2.2⟩

/-- C7: an empty message is a fatal assertion at construction (`new`,
`wrap` and `from_external` refuse it outright, modelled as `none`, never a
recoverable returned error), and every successfully constructed value —
terminal or grown by any number of wraps — has only non-empty messages in
its chain. -/
theorem C7_message_nonempty :
    (∀ flag st k ctx tid pl, ErrFw.new flag st k "" ctx tid pl = none) ∧
    (∀ c k ctx tid pl, ErrFw.wrap c k "" ctx tid pl = none) ∧
    (∀ flag st ext, ext.message = "" → ErrFw.fromExternal flag st ext = none) ∧
    (∀ flag st k m ctx tid pl e, ErrFw.new flag st k m ctx tid pl = some e →
        e.message ≠ "" ∧ ErrFw.allMessagesNonEmpty e = true) ∧
    (∀ t layers e, ErrFw.allMessagesNonEmpty t = true →
        ErrFw.wrapAll t layers = some e → ErrFw.allMessagesNonEmpty e = true) := by
  refine ⟨?_, ?_, ?_, ?_, ?_⟩
  · intro flag st k ctx tid pl
    simp [ErrFw.new]
  · intro c k ctx tid pl
    simp [ErrFw.wrap]
  · intro flag st ext hm
    simp [ErrFw.fromExternal, hm]
  · intro flag st k m ctx tid pl e h
    obtain ⟨hm, he⟩ := ErrFw.new_eq_some h
    subst he
    exact ⟨hm, by simp [ErrFw.allMessagesNonEmpty, hm]⟩
  · intro t layers e hm hw
    exact ErrFw.wrapAll_allMessagesNonEmpty hm hw

/-- C7 witness: `new` with an empty message fails fatally, while the sample
construction succeeds with a chain of non-empty messages. -/
theorem C7_witness :
    ErrFw.new false 0 .io "" none 10 "iopayload" = none ∧
    ErrFw.allMessagesNonEmpty Samples.t0 = true := by
  have h := C7_message_nonempty
  refine ⟨h.1 false 0 .io none 10 "iopayload", ?_⟩
  exact (h.2.2.2.1 false 0 .io "file not found" none 10 "iopayload" Samples.t0 rfl).2

/-- C8 counterexample: both lines of the file parse as i32 (each is
2000000000), but their exact sum 4000000000 exceeds the i32 range, and
`read_and_sum` returns the wrapped value -294967296 instead of the exact
sum claimed. -/
theorem C8_counterexample_overflow :
    Ch07.parse_i32 (Ch07.trim "2000000000") = .ok 2000000000 ∧
    Ch07.read_and_sum (.ok [.ok "2000000000", .ok "2000000000"]) =
      .ok (-294967296) ∧
    (2000000000 + 2000000000 : Int) = 4000000000 ∧
    (-294967296 : Int) ≠ 4000000000 := by
  refine ⟨rfl, rfl, by norm_num, by norm_num⟩

/-- C8 (amended): `read_and_sum` returns Ok exactly when the file opens and
every line reads and its trimmed text parses as an i32; the returned value
is the left-to-right fold of the parsed integers under wrapping i32
addition (the exact sum whenever no intermediate overflow occurs); on
failure it returns the first failure in order, no later line
contributing. -/
theorem C8_read_and_sum_spec (file : Ch07.FileOracle) :
    (∀ e, file = .error e → Ch07.read_and_sum file = .error (.io e)) ∧
    (∀ lrs, file = .ok lrs →
        ((∃ s, Ch07.read_and_sum file = .ok s) ↔
            ∀ r ∈ lrs, ∃ s n, r = .ok s ∧ Ch07.parse_i32 (Ch07.trim s) = .ok n) ∧
        (∀ ns, Ch07.parsedInts lrs = some ns →
            Ch07.read_and_sum file = .ok (Ch07.wrapSumFrom 0 ns)) ∧
        (Ch07.parsedInts lrs = none →
            ∃ err, Ch07.firstFailure lrs = some err ∧
              Ch07.read_and_sum file = .error err)) := by
  constructor
  · intro e h
    subst h
    rfl
  · intro lrs h
    subst h
    refine ⟨?_, ?_, ?_⟩
    · rw [← Ch07.parsedInts_isSome_iff]
      constructor
      · rintro ⟨s, hs⟩
        cases hp : Ch07.parsedInts lrs with
        | some ns => exact ⟨ns, rfl⟩
        | none =>
          obtain ⟨err, _, herr⟩ := Ch07.sumLines_of_failure hp
          have : Ch07.read_and_sum (.ok lrs) = .error err := herr 0
          rw [hs] at this
          exact absurd this (by simp)
      · rintro ⟨ns, hns⟩
        exact ⟨Ch07.wrapSumFrom 0 ns, Ch07.sumLines_of_parsedInts hns 0⟩
    · intro ns hns
      exact Ch07.sumLines_of_parsedInts hns 0
    · intro hnone
      obtain ⟨err, hf, hs⟩ := Ch07.sumLines_of_failure hnone
      exact ⟨err, hf, hs 0⟩

/-- C8 witness: on a readable two-line file the amended theorem yields the
wrapping-fold sum, and on an unopenable file it yields the I/O error. -/
theorem C8_witness :
    Ch07.read_and_sum (.ok [.ok " 1 ", .ok "2"]) =
      .ok (Ch07.wrapSumFrom 0 [1, 2]) ∧
    Ch07.read_and_sum (.error ⟨"no such file"⟩) =
      .error (.io ⟨"no such file"⟩) := by
  refine ⟨?_, ?_⟩
  · exact ((C8_read_and_sum_spec (.ok [.ok " 1 ", .ok "2"])).2
      [.ok " 1 ", .ok "2"] rfl).2.1 [1, 2] rfl
  · exact (C8_read_and_sum_spec (.error ⟨"no such file"⟩)).1 ⟨"no such file"⟩ rfl

/-- C9: for every table and search string, `find_by_prefix` returns the
element at the lowest index whose string starts with the given string
(every earlier element failing the test), returns `none` exactly when no
element starts with it, and in particular returns `none` on the empty
table. -/
theorem C9_find_by_prefix_first_match (t : Ch05.StringTable) (p : String) :
    (∀ s, Ch05.find_by_prefix t p = some s ↔
        ∃ i, t.elements.get? i = some s ∧ Ch05.starts_with s p = true ∧
          ∀ j, j < i → ∀ x, t.elements.get? j = some x →
            Ch05.starts_with x p = false) ∧
    ( Ch05.find_by_prefix t p = none ↔
        ∀ s ∈ t.elements, Ch05.starts_with s p = false) ∧
    Ch05.find_by_prefix ⟨[]⟩ p = none := by
  refine ⟨?_, ?_, rfl⟩
  · intro s
    exact Ch05.findFrom_eq_some_iff p t.elements s
  · exact Ch05.findFrom_eq_none_iff p t.elements

/-- C9 witness: on the table from ch_05's `main` the search for "app"
returns "apple" (index 0 match) and the search for "kiwi" returns none;
the empty table yields none. -/
theorem C9_witness :
    Ch05.find_by_prefix ⟨["apple", "banana", "orange"]⟩ "app" = some "apple" ∧
    Ch05.find_by_prefix ⟨["apple", "banana", "orange"]⟩ "kiwi" = none ∧
    Ch05.find_by_prefix ⟨[]⟩ "app" = none := by
  refine ⟨?_, ?_, (C9_find_by_prefix_first_match ⟨[]⟩ "app").2.2⟩
  · exact ((C9_find_by_prefix_first_match ⟨["apple", "banana", "orange"]⟩ "app").1
      "apple").mpr ⟨0, rfl, by decide, by omega⟩
  · exact (C9_find_by_prefix_first_match ⟨["apple", "banana", "orange"]⟩ "kiwi").2.1.mpr
      (by decide)

/-- C10: for u8 operands 1 and 2, checked subtraction is none, wrapping
subtraction is 255 (the difference modulo 2^8), saturating subtraction is
0, overflowing subtraction is (255, true); the program's assertions on the
multiplication results at operands 2 and 3 all hold, so `main` terminates
normally. -/
theorem C10_u8_arithmetic :
    Ch03.checked_sub 1 2 = none ∧
    Ch03.wrapping_sub 1 2 = 255 ∧
    ((1 : Int) - 2) % 256 = (Ch03.wrapping_sub 1 2 : Int) ∧
    Ch03.saturating_sub 1 2 = 0 ∧
    Ch03.overflowing_sub 1 2 = (255, true) ∧
    Ch03.checked_mul 2 3 = some 6 ∧
    Ch03.wrapping_mul 2 3 = 6 ∧
    Ch03.saturating_mul 2 3 = 6 ∧
    Ch03.overflowing_mul 2 3 = (6, false) ∧
    Ch03.mainAsserts = true := by
  refine ⟨by decide, by decide, by decide, by decide, by decide, by decide, by decide,
    by decide, by decide, by decide⟩
